import Mathlib

/-!
Verification development for the AI Website Reader repository (`app.py`,
`app_streamlit.py`).

The Python sources are shallowly embedded: Python strings become `List Char`,
the parsed HTML document (the BeautifulSoup tree) becomes an explicit tree
type, the Qt worker thread becomes a function from an operation environment to
the list of signals it emits, and the button handlers become functions from
the relevant application state to the list of externally visible actions they
perform (error dialogs, worker quiesce/dispatch).  Network and model calls are
modelled by an environment supplying each operation's outcome; UI styling and
widget layout are out of scope and elided.
-/

/-! ## Python string primitives -/

/-- Characters accepted by Python `str.strip()` with no argument (the ASCII
whitespace subset; the sources only ever meet ASCII whitespace here). -/
def isPySpace (c : Char) : Bool :=
  c == ' ' || c == '\t' || c == '\n' || c == '\r' || c == '\x0b' || c == '\x0c'

/-- Python `s.strip()`: remove leading and trailing whitespace. -/
def pyStrip (l : List Char) : List Char :=
  ((l.dropWhile isPySpace).reverse.dropWhile isPySpace).reverse

/-- Line-break characters recognised by Python `str.splitlines()`
(the code points that can occur in practice here). -/
def isLineBreak (c : Char) : Bool :=
  c == '\n' || c == '\r' || c == '\x0b' || c == '\x0c' ||
  c == '\x1c' || c == '\x1d' || c == '\x1e' || c == '\x85' ||
  c == '\u2028' || c == '\u2029'

/-- Prepend a character to the first piece of a split result (helper for the
`split`-style functions below). -/
def consMerge (c : Char) : List (List Char) → List (List Char)
  | [] => [[c]]
  | p :: ps => (c :: p) :: ps

/-- Python `s.splitlines()`: split at line breaks, treating `\r\n` as a single
break and producing no trailing empty line. -/
def splitlinesPy : List Char → List (List Char)
  | [] => []
  | '\r' :: '\n' :: rest => [] :: splitlinesPy rest
  | c :: rest =>
    if isLineBreak c then [] :: splitlinesPy rest
    else consMerge c (splitlinesPy rest)

/-- Python `s.split("  ")`: split at the leftmost non-overlapping occurrences
of two consecutive spaces (`line.split("  ")` in `extract_text`,
app.py:884 / app_streamlit.py:207). -/
def split2 : List Char → List (List Char)
  | [] => [[]]
  | [c] => [[c]]
  | c :: d :: rest =>
    if c = ' ' ∧ d = ' ' then [] :: split2 rest
    else consMerge c (split2 (d :: rest))

/-- Python `'\n'.join(pieces)`. -/
def joinNL : List (List Char) → List Char
  | [] => []
  | [x] => x
  | x :: y :: xs => x ++ '\n' :: joinNL (y :: xs)

/-- Python `s[:n]` for a nonnegative `n`: the first `n` characters. -/
def pySliceTo (l : List Char) (n : Nat) : List Char := l.take n

/-- Concatenation of the images of `f`, used to embed the nested generator
expression `(phrase for line in lines for phrase in line.split("  "))`. -/
def concatMap (f : α → List β) : List α → List β
  | [] => []
  | a :: l => f a ++ concatMap f l

/-! ## Parsed HTML document model

A BeautifulSoup parse tree: a node is a text node (`NavigableString`) or an
element with a tag name and children.  The mutual forest type keeps all
recursion structural. -/

mutual
inductive HNode where
  | text : List Char → HNode
  | elem : List Char → HForest → HNode
inductive HForest where
  | nil : HForest
  | cons : HNode → HForest → HForest
end

/-- Tags removed by the `for script in soup(["script", "style"]):
script.decompose()` loop (app.py:880-881). -/
def isScriptOrStyle (tag : List Char) : Bool :=
  tag == "script".data || tag == "style".data

/-- Effect of the decompose loop on the document: every `script`/`style`
subtree is removed, at any depth (app.py:880-881). -/
def removeSS : HForest → HForest
  | .nil => .nil
  | .cons (.text s) rest => .cons (.text s) (removeSS rest)
  | .cons (.elem tag ch) rest =>
    if isScriptOrStyle tag then removeSS rest
    else .cons (.elem tag (removeSS ch)) (removeSS rest)

/-- BeautifulSoup `soup.get_text()`: concatenate every text node in document
order (app.py:882). -/
def getText : HForest → List Char
  | .nil => []
  | .cons (.text s) rest => s ++ getText rest
  | .cons (.elem _ ch) rest => getText ch ++ getText rest

/-- The whitespace-normalisation pipeline of `extract_text` after
`soup.get_text()` (app.py:883-885): strip each line, split each line at double
spaces, strip each phrase, join the non-empty phrases with newlines. -/
def normalizeText (text : List Char) : List Char :=
  joinNL ((concatMap (fun line => (split2 line).map pyStrip)
    ((splitlinesPy text).map pyStrip)).filter (fun c => !c.isEmpty))

/-- `AIWebsiteReaderApp.extract_text` (app.py:877-886), from the parse tree
onward: drop `script`/`style` subtrees, collect the text, normalise. -/
def AIWebsiteReaderApp.extract_text (soup : HForest) : List Char :=
  normalizeText (getText (removeSS soup))

/-- `AIReader.extract_text` (app_streamlit.py:201-209), the web front end's
copy of the same routine. -/
def AIReader.extract_text (soup : HForest) : List Char :=
  normalizeText (getText (removeSS soup))

/-- BeautifulSoup `soup.find('title')`: first `title` element in document
order (app.py:890-891). -/
def findTitle : HForest → Option HNode
  | .nil => none
  | .cons (.text _) rest => findTitle rest
  | .cons (.elem tag ch) rest =>
    if tag = "title".data then some (.elem tag ch)
    else
      match findTitle ch with
      | some n => some n
      | none => findTitle rest

/-- BeautifulSoup `tag.string`: the unique `NavigableString` child if there is
exactly one child, descending through a unique element child; `none` models
Python `None` (app.py:892). -/
def nodeString : HNode → Option (List Char)
  | .text s => some s
  | .elem _ (.cons child .nil) => nodeString child
  | .elem _ _ => none

/-- Fallback title returned when the document has no `title` element
(app.py:892). -/
def fallbackTitle : List Char := "Неизвестный сайт".data

/-- `AIWebsiteReaderApp.get_title` (app.py:888-892): the first `title`
element's `.string` if a `title` element exists, else the fixed fallback.
`Option` models that `title.string` may be Python `None`. -/
def get_title (soup : HForest) : Option (List Char) :=
  match findTitle soup with
  | some title => nodeString title
  | none => some fallbackTitle

/-! ## Worker thread model

`WorkerThread` (app.py:31-119).  The network and model calls performed by the
four operations are modelled by an `OpEnv` supplying each operation's outcome:
`Except.ok` is a normal return, `Except.error m` is a raised exception whose
`str(e)` is `m`. -/

/-- Constructor arguments of `WorkerThread.__init__` (app.py:37-45); the
`client` handle is external and elided.  `query`/`content` default to Python
`None`, modelled by `Option`. -/
structure WorkerArgs where
  task_type : List Char
  url : List Char
  query : Option (List Char)
  content : Option (List Char)
  model : List Char
  max_length : Nat

/-- Outcomes of the four effectful operations `_fetch_website`, `_summarize`,
`_analyze` and `_text_to_speech` for the current request. -/
structure OpEnv where
  fetchResult : Except (List Char) (List Char)
  summarizeResult : Except (List Char) (List Char)
  analyzeResult : Except (List Char) (List Char)
  ttsResult : Except (List Char) (List Char)

/-- A signal emitted by the worker: `finished` (app.py:33) or `error`
(app.py:34), each carrying its string payload. -/
inductive WSignal where
  | finished : List Char → WSignal
  | error : List Char → WSignal
deriving DecidableEq

/-- Message of the `UnboundLocalError` raised by `self.finished.emit(result)`
when no branch of the `if` chain assigned `result` (app.py:49-58). -/
def unboundLocalMsg : List Char :=
  "local variable 'result' referenced before assignment".data

/-- Body of the `try` block of `WorkerThread.run` (app.py:48-58): dispatch on
`task_type`; with an unrecognised `task_type` the local `result` is never
assigned, so referencing it at the `emit` raises. -/
def runBody (env : OpEnv) (w : WorkerArgs) : Except (List Char) (List Char) :=
  if w.task_type = "fetch".data then env.fetchResult
  else if w.task_type = "summarize".data then env.summarizeResult
  else if w.task_type = "analyze".data then env.analyzeResult
  else if w.task_type = "tts".data then env.ttsResult
  else Except.error unboundLocalMsg

/-- `WorkerThread.run` (app.py:47-60): the list of signals the run emits — a
single `finished` on success, and a single `error` carrying `str(e)` when the
body raises (the `except` clause catches every exception). -/
def WorkerThread.run (env : OpEnv) (w : WorkerArgs) : List WSignal :=
  match runBody env w with
  | .ok r => [.finished r]
  | .error m => [.error m]

/-! ## Completion and speech requests

The requests built by `_summarize`, `_analyze` and `_text_to_speech` before
they are handed to the OpenAI client.  `self.content`, `self.model`,
`self.max_length`, `self.query` are passed here as arguments; temperature 0.7
is recorded as 7 tenths since the embedding avoids floating point. -/

structure ChatMsg where
  role : List Char
  content : List Char
deriving DecidableEq

structure ChatReq where
  model : List Char
  messages : List ChatMsg
  temperatureTenths : Nat
  max_tokens : Nat
deriving DecidableEq

structure SpeechReq where
  model : List Char
  voice : List Char
  input : List Char
deriving DecidableEq

/-- System prompt of `_summarize` (app.py:90). -/
def sumSysPrompt : List Char :=
  "Вы полезный помощник, который кратко и точно резюмирует содержимое веб-сайтов на русском и английском языке.".data

/-- User prompt of `_summarize` (app.py:94) around the truncated content. -/
def sumUserPre (maxLength : Nat) : List Char :=
  "Пожалуйста, резюмируйте следующее содержимое в ".data ++
  (toString maxLength).data ++ " символов или меньше:\n\n".data

/-- Request built by `WorkerThread._summarize` (app.py:83-99): the source text
is cut to its first 4000 characters before being embedded in the prompt. -/
def WorkerThread.summarize_request (content : List Char) (model : List Char)
    (maxLength : Nat) : ChatReq :=
  let c := pySliceTo content 4000
  ⟨model,
   [⟨"system".data, sumSysPrompt⟩, ⟨"user".data, sumUserPre maxLength ++ c⟩],
   7, 300⟩

/-- System prompt of `_analyze` (app.py:109). -/
def anaSysPrompt : List Char :=
  "Вы полезный помощник, который отвечает на вопросы о содержимом веб-сайтов. Отвечайте на русском языке.".data

/-- User prompt of `_analyze` (app.py:113): the question, then the truncated
content. -/
def anaUserPre (query : List Char) : List Char :=
  "На основе следующего содержимого веб-сайта ответьте на этот вопрос: ".data ++
  query ++ "\n\nСодержимое:\n".data

/-- Request built by `WorkerThread._analyze` (app.py:102-119): same
4000-character cut. -/
def WorkerThread.analyze_request (content : List Char) (model : List Char)
    (query : List Char) : ChatReq :=
  let c := pySliceTo content 4000
  ⟨model,
   [⟨"system".data, anaSysPrompt⟩, ⟨"user".data, anaUserPre query ++ c⟩],
   7, 400⟩

/-- Request built by `WorkerThread._text_to_speech` (app.py:62-69): the text
is cut to its first 3000 characters; `self.model` holds the voice name.  The
audio file write afterwards is external I/O and out of scope. -/
def WorkerThread.tts_request (content : List Char) (voice : List Char) :
    SpeechReq :=
  let ttsText := pySliceTo content 3000
  ⟨"tts-1".data, voice, ttsText⟩

/-! ## Button handlers and worker dispatch

The `AIWebsiteReaderApp` handlers (app.py:894-1213), modelled as functions
from the relevant application state to the list of externally visible actions
they take, in program order: error dialogs, quiescing of the previous worker
(`quit()` then `wait()`), and starting a new worker.  Status-label and widget
updates have no bearing on dispatch and are elided. -/

/-- Relevant mutable state of `AIWebsiteReaderApp` (app.py:129-137) plus the
current contents of the input widgets the handlers read. -/
structure AppState where
  api_key : List Char
  url_input_summarize : List Char
  url_input_analyze : List Char
  question_input : List Char
  url_input_extract : List Char
  tts_text_input : List Char
  current_url : List Char
  worker_thread : Option Nat

/-- Externally visible actions of a handler.  `quitWorker`/`waitWorker` name
the previous worker being quiesced; `startWorker` carries the new worker's
`task_type` and `url` arguments. -/
inductive UiEvent where
  | showError : List Char → List Char → UiEvent
  | quitWorker : Nat → UiEvent
  | waitWorker : Nat → UiEvent
  | startWorker : List Char → List Char → UiEvent
deriving DecidableEq

/-- The `if self.worker_thread: quit(); wait()` cleanup block that precedes
worker creation in the fetch handlers and in `on_website_fetched`
(e.g. app.py:913-916). -/
def cleanupOld : Option Nat → List UiEvent
  | some i => [.quitWorker i, .waitWorker i]
  | none => []

/-- The `if not url.startswith('http'): url = 'https://' + url`
normalisation (app.py:905-906). -/
def ensureScheme (url : List Char) : List Char :=
  if "http".data.isPrefixOf url then url else "https://".data ++ url

/-- `AIWebsiteReaderApp.on_summarize_clicked` (app.py:894-922). -/
def on_summarize_clicked (st : AppState) : List UiEvent :=
  if st.api_key = [] then
    [.showError "Ошибка".data "Введите OpenAI API Key".data]
  else
    let url := pyStrip st.url_input_summarize
    if url = [] then [.showError "Ошибка".data "Введите URL сайта".data]
    else cleanupOld st.worker_thread ++
      [.startWorker "fetch".data (ensureScheme url)]

/-- `AIWebsiteReaderApp.on_analyze_clicked` (app.py:924-952). -/
def on_analyze_clicked (st : AppState) : List UiEvent :=
  if st.api_key = [] then
    [.showError "Ошибка".data "Введите OpenAI API Key".data]
  else
    let url := pyStrip st.url_input_analyze
    let query := pyStrip st.question_input
    if url = [] ∨ query = [] then
      [.showError "Ошибка".data "Введите URL и вопрос".data]
    else cleanupOld st.worker_thread ++
      [.startWorker "fetch".data (ensureScheme url)]

/-- `AIWebsiteReaderApp.on_extract_clicked` (app.py:954-977).  There is no
credential check on this path in the source. -/
def on_extract_clicked (st : AppState) : List UiEvent :=
  let url := pyStrip st.url_input_extract
  if url = [] then [.showError "Ошибка".data "Введите URL сайта".data]
  else cleanupOld st.worker_thread ++
    [.startWorker "fetch".data (ensureScheme url)]

/-- `AIWebsiteReaderApp.on_website_fetched` (app.py:979-1039): the second
phase of the two-phase summarize/analyze flows dispatches the completion
worker after quiescing; the extract branch only updates widgets.  The
extraction of `current_text`/`current_title` from the fetched markup mutates
state but raises no dispatch event and is elided here. -/
def on_website_fetched (st : AppState) (task_type : List Char) : List UiEvent :=
  if task_type = "summarize".data then
    cleanupOld st.worker_thread ++
      [.startWorker "summarize".data st.current_url]
  else if task_type = "analyze".data then
    cleanupOld st.worker_thread ++
      [.startWorker "analyze".data st.current_url]
  else []

/-- `AIWebsiteReaderApp.on_tts_clicked` (app.py:1187-1213).  Unlike every
other dispatch path, the source creates and starts the new worker without the
`quit()`/`wait()` cleanup block; the new worker's `url` argument is `""`. -/
def on_tts_clicked (st : AppState) : List UiEvent :=
  if st.api_key = [] then
    [.showError "Ошибка".data "Введите OpenAI API Key".data]
  else
    let text := pyStrip st.tts_text_input
    if text = [] then
      [.showError "Ошибка".data "Введите текст для озвучивания".data]
    else [.startWorker "tts".data []]

/-! ## Session history -/

/-- One history entry (app.py:1046-1051, 1063-1069); the timestamp is kept as
its already-formatted display string. -/
structure HistoryEntry where
  kind : List Char
  title : List Char
  query : Option (List Char)
  result : List Char
  time : List Char
deriving DecidableEq

/-- Python `list.append`: adds the element at the end. -/
def listAppendPy (h : List α) (e : α) : List α := h ++ [e]

/-- Display string of one history row,
`f"#{i} {item['type']} - {item['title']} ({time_str})"` (app.py:1093-1094). -/
def historyItemText (i : Nat) (it : HistoryEntry) : List Char :=
  "#".data ++ (toString i).data ++ " ".data ++ it.kind ++ " - ".data ++
  it.title ++ " (".data ++ it.time ++ ")".data

/-- `AIWebsiteReaderApp.update_history_list` (app.py:1090-1096): the rows
shown, built from `enumerate(reversed(self.history), 1)`. -/
def update_history_list (history : List HistoryEntry) : List (List Char) :=
  (List.enumFrom 1 history.reverse).map (fun p => historyItemText p.1 p.2)

/-! ## Spec-side description of the whitespace normalisation

spec.md §4.2 describes the splitting step of `extract_text` as splitting each
line "on runs of two-or-more spaces".  The code splits at the literal
two-space string instead.  The definitions below follow the spec's words, to
be compared with the code's pipeline. -/

/-- Splitting a line at maximal runs of two-or-more spaces, as the spec words
the step ("splits each line on runs of two-or-more spaces into phrases"). -/
def splitRuns : List Char → List (List Char)
  | [] => [[]]
  | [c] => [[c]]
  | c :: d :: rest =>
    if c = ' ' ∧ d = ' ' then
      [] :: splitRuns (rest.dropWhile (· = ' '))
    else consMerge c (splitRuns (d :: rest))
termination_by l => l.length
decreasing_by
  · simp only [List.length_cons]
    have h : (rest.dropWhile (fun c => decide (c = ' '))).length ≤
        rest.length := (List.dropWhile_sublist _).length_le
    omega
  · simp only [List.length_cons]
    omega

/-- The non-empty stripped phrases of a split result. -/
def phrasesOf (ps : List (List Char)) : List (List Char) :=
  (ps.map pyStrip).filter (fun c => !c.isEmpty)

/-- The normalisation pipeline as the spec words it: split into lines, strip
each line, split each line on runs of two-or-more spaces, strip each phrase,
join the non-empty phrases with single newlines. -/
def specNormalizeText (text : List Char) : List Char :=
  joinNL (concatMap (fun line => phrasesOf (splitRuns line))
    ((splitlinesPy text).map pyStrip))

/-! ## Support for script/style exclusion and title extraction -/

/-- Erase the contents of every `script`/`style` element (keeping the empty
element), at any depth.  Output of `extract_text` being invariant under this
erasure expresses that those contents never reach the output. -/
def blankSS : HForest → HForest
  | .nil => .nil
  | .cons (.text s) rest => .cons (.text s) (blankSS rest)
  | .cons (.elem tag ch) rest =>
    .cons (.elem tag (if isScriptOrStyle tag then .nil else blankSS ch))
      (blankSS rest)

mutual
/-- Parser invariant: every text node in the node is non-empty (the HTML
parser never creates an empty `NavigableString`). -/
def nodeTextsNE : HNode → Bool
  | .text s => !s.isEmpty
  | .elem _ ch => forestTextsNE ch
/-- Parser invariant, forest form. -/
def forestTextsNE : HForest → Bool
  | .nil => true
  | .cons n rest => nodeTextsNE n && forestTextsNE rest
end

/-! ## Concrete inputs used by the claim theorems and witnesses -/

/-- App state with a previously created worker (id 0) and valid inputs for
both the summarize and the text-to-speech panels. -/
def c1State : AppState :=
  ⟨"key".data, "example.com".data, [], [], [], "привет".data, [], some 0⟩

/-- App state with an empty credential and a URL typed into the extract
panel. -/
def c3State : AppState :=
  ⟨[], [], [], [], "example.com".data, [], [], none⟩

/-- Parse tree of `<script>alert(1)</script><p>Hello</p>`. -/
def exampleDoc : HForest :=
  .cons (.elem "script".data (.cons (.text "alert(1)".data) .nil))
    (.cons (.elem "p".data (.cons (.text "Hello".data) .nil)) .nil)

/-- Parse tree of `<title>Site</title>`. -/
def titleDoc : HForest :=
  .cons (.elem "title".data (.cons (.text "Site".data) .nil)) .nil

/-- Environment in which each of the four operations returns normally. -/
def okEnv : OpEnv :=
  ⟨.ok "h".data, .ok "s".data, .ok "a".data, .ok "p".data⟩

/-- Worker constructor arguments for a fetch task. -/
def fetchArgs : WorkerArgs :=
  ⟨"fetch".data, "https://example.com".data, none, none,
   "gpt-3.5-turbo".data, 500⟩

/-- Worker constructor arguments with a task type outside the four supported
kinds. -/
def bogusArgs : WorkerArgs :=
  ⟨"bogus".data, [], none, none, [], 500⟩

/-! ## Helper lemmas -/

theorem consMerge_shape (c : Char) (ps : List (List Char)) :
    ∃ p t, consMerge c ps = p :: t := by
  cases ps with
  | nil => exact ⟨[c], [], rfl⟩
  | cons p t => exact ⟨c :: p, t, rfl⟩

theorem splitRuns_shape (l : List Char) : ∃ p t, splitRuns l = p :: t := by
  match l with
  | [] => exact ⟨[], [], by simp [splitRuns]⟩
  | [c] => exact ⟨[c], [], by simp [splitRuns]⟩
  | c :: d :: rest =>
    by_cases h : c = ' ' ∧ d = ' '
    · exact ⟨[], splitRuns (rest.dropWhile (· = ' ')), by simp [splitRuns, h]⟩
    · obtain ⟨p, t, hpt⟩ := consMerge_shape c (splitRuns (d :: rest))
      exact ⟨p, t, by simp [splitRuns, h, hpt]⟩

theorem pyStrip_nil : pyStrip [] = [] := rfl

theorem pyStrip_cons_space (l : List Char) : pyStrip (' ' :: l) = pyStrip l := by
  simp [pyStrip, isPySpace]

theorem phrasesOf_cons (p : List Char) (ps : List (List Char)) :
    phrasesOf (p :: ps) =
      if pyStrip p = [] then phrasesOf ps else pyStrip p :: phrasesOf ps := by
  cases hp : pyStrip p with
  | nil => simp [phrasesOf, List.filter_cons, hp]
  | cons a t => simp [phrasesOf, List.filter_cons, hp]

theorem phrasesR_dropSpaces (l : List Char) :
    phrasesOf (splitRuns (l.dropWhile (· = ' '))) = phrasesOf (splitRuns l) := by
  match l with
  | [] => rfl
  | c :: rest =>
    by_cases hc : c = ' '
    · subst hc
      match rest with
      | [] =>
        have hdw : List.dropWhile (· = ' ') [' '] = ([] : List Char) := by simp
        have h1 : splitRuns ([] : List Char) = [[]] := by simp [splitRuns]
        have h2 : splitRuns [' '] = [[' ']] := by simp [splitRuns]
        rw [hdw, h1, h2, phrasesOf_cons, phrasesOf_cons]
        rfl
      | d :: u =>
        by_cases hd : d = ' '
        · subst hd
          have hdw : List.dropWhile (· = ' ') (' ' :: ' ' :: u) =
              List.dropWhile (· = ' ') u := by simp
          have hsr : splitRuns (' ' :: ' ' :: u) =
              [] :: splitRuns (u.dropWhile (· = ' ')) := by
            simp [splitRuns]
          rw [hdw, hsr, phrasesOf_cons, pyStrip_nil, if_pos rfl]
        · have hdw : List.dropWhile (· = ' ') (' ' :: d :: u) = d :: u := by
            simp [hd]
          have hsr : splitRuns (' ' :: d :: u) =
              consMerge ' ' (splitRuns (d :: u)) := by
            simp [splitRuns, hd]
          obtain ⟨p, t, hpt⟩ := splitRuns_shape (d :: u)
          rw [hdw, hsr, hpt, consMerge, phrasesOf_cons, phrasesOf_cons,
            pyStrip_cons_space]
    · simp [List.dropWhile_cons_of_neg, hc]

theorem split_align : ∀ l : List Char,
    ∃ p t2 tR, split2 l = p :: t2 ∧ splitRuns l = p :: tR ∧
      phrasesOf t2 = phrasesOf tR
  | [] => ⟨[], [], [], rfl, by simp [splitRuns], rfl⟩
  | [c] => ⟨[c], [], [], rfl, by simp [splitRuns], rfl⟩
  | c :: d :: rest => by
    by_cases h : c = ' ' ∧ d = ' '
    · obtain ⟨hc, hd⟩ := h
      subst hc; subst hd
      refine ⟨[], split2 rest, splitRuns (rest.dropWhile (· = ' ')),
        by simp [split2], by simp [splitRuns], ?_⟩
      obtain ⟨p, t2, tR, h1, h2, h3⟩ := split_align rest
      rw [phrasesR_dropSpaces rest, h1, h2, phrasesOf_cons, phrasesOf_cons, h3]
    · obtain ⟨p, t2, tR, h1, h2, h3⟩ := split_align (d :: rest)
      exact ⟨c :: p, t2, tR, by simp [split2, h, h1, consMerge],
        by simp [splitRuns, h, h2, consMerge], h3⟩
termination_by l => l.length
decreasing_by
  · simp only [List.length_cons]; omega
  · simp only [List.length_cons]; omega

theorem phrases_eq (l : List Char) :
    phrasesOf (split2 l) = phrasesOf (splitRuns l) := by
  obtain ⟨p, t2, tR, h1, h2, h3⟩ := split_align l
  rw [h1, h2, phrasesOf_cons, phrasesOf_cons, h3]

theorem filter_concatMap (p : β → Bool) (f : α → List β) (l : List α) :
    (concatMap f l).filter p = concatMap (fun a => (f a).filter p) l := by
  induction l with
  | nil => rfl
  | cons a t ih => simp [concatMap, List.filter_append, ih]

theorem concatMap_congr {f g : α → List β} (l : List α)
    (h : ∀ a ∈ l, f a = g a) : concatMap f l = concatMap g l := by
  induction l with
  | nil => rfl
  | cons a t ih =>
    simp only [concatMap, h a (by simp),
      ih (fun x hx => h x (by simp [hx]))]

theorem normalizeText_eq_spec (text : List Char) :
    normalizeText text = specNormalizeText text := by
  unfold normalizeText specNormalizeText
  rw [filter_concatMap]
  congr 1
  apply concatMap_congr
  intro a _
  exact phrases_eq a


theorem removeSS_blankSS : ∀ f : HForest, removeSS (blankSS f) = removeSS f
  | .nil => rfl
  | .cons (.text s) rest => by
    simp only [blankSS, removeSS, removeSS_blankSS rest]
  | .cons (.elem tag ch) rest => by
    by_cases h : isScriptOrStyle tag = true
    · simp only [blankSS, removeSS, h, if_pos, removeSS_blankSS rest]
    · simp only [blankSS, removeSS, h, if_neg, Bool.false_eq_true,
        removeSS_blankSS rest, removeSS_blankSS ch, if_false]

theorem nodeString_ne_nil : ∀ n : HNode, nodeTextsNE n = true →
    ∀ s, nodeString n = some s → s ≠ []
  | .text s => by
    intro h s' hs hnil
    simp only [nodeString, Option.some.injEq] at hs
    subst hs
    subst hnil
    simp [nodeTextsNE] at h
  | .elem tag ch => by
    intro h s hs
    cases ch with
    | nil => simp [nodeString] at hs
    | cons child rest =>
      cases rest with
      | nil =>
        simp only [nodeString] at hs
        have hne : nodeTextsNE child = true := by
          simp only [nodeTextsNE, forestTextsNE, Bool.and_eq_true] at h
          exact h.1
        exact nodeString_ne_nil child hne s hs
      | cons _ _ => simp [nodeString] at hs

theorem findTitle_textsNE : ∀ f : HForest, forestTextsNE f = true →
    ∀ n, findTitle f = some n → nodeTextsNE n = true
  | .nil => by intro _ n h; simp [findTitle] at h
  | .cons (.text s) rest => by
    intro h n hf
    simp only [findTitle] at hf
    have hr : forestTextsNE rest = true := by
      simp only [forestTextsNE, Bool.and_eq_true] at h
      exact h.2
    exact findTitle_textsNE rest hr n hf
  | .cons (.elem tag ch) rest => by
    intro h n hf
    simp only [forestTextsNE, nodeTextsNE, Bool.and_eq_true] at h
    obtain ⟨hch, hrest⟩ := h
    simp only [findTitle] at hf
    by_cases ht : tag = "title".data
    · rw [if_pos ht] at hf
      simp only [Option.some.injEq] at hf
      subst hf
      simpa [nodeTextsNE] using hch
    · rw [if_neg ht] at hf
      cases hfc : findTitle ch with
      | some m =>
        simp only [hfc, Option.some.injEq] at hf
        subst hf
        exact findTitle_textsNE ch hch m hfc
      | none =>
        simp only [hfc] at hf
        exact findTitle_textsNE rest hrest n hf

theorem foldl_listAppendPy (es : List α) :
    ∀ acc : List α, es.foldl listAppendPy acc = acc ++ es := by
  induction es with
  | nil => intro acc; simp
  | cons e t ih =>
    intro acc
    simp [listAppendPy, ih]

/-! ## Claim theorems -/

/-- C1: the claim says every dispatch path quiesces (quits and waits for) the
previously created worker before starting a new one, including the
text-to-speech handler.  The code violates this on the TTS path: from a state
with a previous worker (id 0) and valid inputs, `on_tts_clicked` starts the
new worker with no preceding `quitWorker 0`/`waitWorker 0`, unlike (contrast)
`on_summarize_clicked` from the same state, which quiesces first
(app.py:1187-1213 versus app.py:913-922). -/
theorem tts_dispatch_skips_quiesce :
    c1State.worker_thread = some 0 ∧
    on_tts_clicked c1State = [.startWorker "tts".data []] ∧
    UiEvent.quitWorker 0 ∉ on_tts_clicked c1State ∧
    UiEvent.waitWorker 0 ∉ on_tts_clicked c1State ∧
    on_summarize_clicked c1State =
      [.quitWorker 0, .waitWorker 0,
       .startWorker "fetch".data "https://example.com".data] := by
  refine ⟨rfl, by decide, by decide, by decide, by decide⟩

/-- C2: the summarize and analyze requests embed exactly the first 4000
characters of the source text and the speech request exactly the first 3000;
a 5000-character input is cut to its first 4000 (respectively 3000)
characters, and inputs at or under the cap are forwarded unchanged
(app.py:64, 84, 103). -/
theorem truncation_caps :
    ∀ (content model query voice : List Char) (maxLength : Nat),
      (WorkerThread.summarize_request content model maxLength).messages =
        [⟨"system".data, sumSysPrompt⟩,
         ⟨"user".data, sumUserPre maxLength ++ content.take 4000⟩] ∧
      (WorkerThread.analyze_request content model query).messages =
        [⟨"system".data, anaSysPrompt⟩,
         ⟨"user".data, anaUserPre query ++ content.take 4000⟩] ∧
      (WorkerThread.tts_request content voice).input = content.take 3000 ∧
      (content.length = 5000 →
        (content.take 4000).length = 4000 ∧
        content.take 4000 ++ content.drop 4000 = content ∧
        (content.take 3000).length = 3000) ∧
      (content.length ≤ 4000 → content.take 4000 = content) ∧
      (content.length ≤ 3000 → content.take 3000 = content) := by
  intro content model query voice maxLength
  refine ⟨rfl, rfl, rfl, ?_, ?_, ?_⟩
  · intro h
    refine ⟨?_, List.take_append_drop 4000 content, ?_⟩
    · rw [List.length_take, h]
      omega
    · rw [List.length_take, h]
      omega
  · intro h
    exact List.take_of_length_le h
  · intro h
    exact List.take_of_length_le h

/-- C2 witness: the theorem applied to concrete 5000- and 3000-character
inputs. -/
theorem truncation_caps_witness :
    ((List.replicate 5000 'x').take 4000).length = 4000 ∧
    (List.replicate 3000 'y').take 3000 = List.replicate 3000 'y' := by
  have h1 := truncation_caps (List.replicate 5000 'x') [] [] [] 500
  have h2 := truncation_caps (List.replicate 3000 'y') [] [] [] 500
  exact ⟨(h1.2.2.2.1 (List.length_replicate 5000 'x')).1,
    h2.2.2.2.2.2 (Nat.le_of_eq (List.length_replicate 3000 'y'))⟩

/-- C3 counterexample: with an empty credential, the extract handler still
dispatches its fetch worker instead of reporting a configuration error —
`on_extract_clicked` has no credential check (app.py:954-977). -/
theorem extract_dispatches_without_credential :
    c3State.api_key = [] ∧
    on_extract_clicked c3State =
      [.startWorker "fetch".data "https://example.com".data] := by
  exact ⟨rfl, by decide⟩

/-- C3 amended: an empty credential gates the summarize, analyze and
text-to-speech dispatches — each reports the configuration error
synchronously and creates no worker — but the text-extraction fetch path
dispatches regardless of the credential (app.py:895-897, 926-928,
1189-1191). -/
theorem credential_gates_ai_handlers :
    ∀ st : AppState, st.api_key = [] →
      on_summarize_clicked st =
        [.showError "Ошибка".data "Введите OpenAI API Key".data] ∧
      on_analyze_clicked st =
        [.showError "Ошибка".data "Введите OpenAI API Key".data] ∧
      on_tts_clicked st =
        [.showError "Ошибка".data "Введите OpenAI API Key".data] := by
  intro st h
  refine ⟨?_, ?_, ?_⟩
  · simp [on_summarize_clicked, h]
  · simp [on_analyze_clicked, h]
  · simp [on_tts_clicked, h]

/-- C3 witness: the amended theorem at the concrete empty-credential state. -/
theorem credential_gates_ai_handlers_witness :
    on_tts_clicked c3State =
      [.showError "Ошибка".data "Введите OpenAI API Key".data] :=
  (credential_gates_ai_handlers c3State rfl).2.2

/-- C4: for every collected text, the code's normalisation (strip lines,
split at the two-space string, strip phrases, keep the non-empty ones, join
with newlines) computes exactly the spec's description (split each line on
runs of two-or-more spaces); in particular a document whose text lines are
`"a   b"` and `"  c  "` extracts to `"a\nb\nc"`. -/
theorem whitespace_normalization_spec :
    (∀ text : List Char, normalizeText text = specNormalizeText text) ∧
    AIWebsiteReaderApp.extract_text (.cons (.text "a   b\n  c  ".data) .nil) =
      "a\nb\nc".data :=
  ⟨normalizeText_eq_spec, by decide⟩

/-- C5: the output of `extract_text` is unchanged when the contents of every
`script`/`style` subtree are erased — those contents never appear in the
output; in particular `<script>alert(1)</script><p>Hello</p>` extracts to a
string containing `"Hello"` and not containing `"alert"`. -/
theorem script_style_never_in_output :
    (∀ doc : HForest,
      AIWebsiteReaderApp.extract_text (blankSS doc) =
        AIWebsiteReaderApp.extract_text doc) ∧
    "Hello".data <:+: AIWebsiteReaderApp.extract_text exampleDoc ∧
    ¬ ("alert".data <:+: AIWebsiteReaderApp.extract_text exampleDoc) := by
  refine ⟨?_, by decide, by decide⟩
  intro doc
  unfold AIWebsiteReaderApp.extract_text
  rw [removeSS_blankSS]

/-- C6: `get_title` returns the fixed (non-empty) fallback when no `title`
element exists and the first `title` element's `.string` when one does; under
the parser invariant that text nodes are non-empty, the result is never the
empty string, and the function is total (never raises). -/
theorem title_extraction_fallback :
    ∀ soup : HForest,
      (findTitle soup = none → get_title soup = some fallbackTitle) ∧
      (∀ n, findTitle soup = some n → get_title soup = nodeString n) ∧
      (forestTextsNE soup = true → ∀ s, get_title soup = some s → s ≠ []) ∧
      fallbackTitle ≠ [] := by
  intro soup
  refine ⟨?_, ?_, ?_, by decide⟩
  · intro h
    unfold get_title
    rw [h]
  · intro n h
    unfold get_title
    rw [h]
  · intro hne s hs
    cases hf : findTitle soup with
    | none =>
      have hg : get_title soup = some fallbackTitle := by
        unfold get_title
        rw [hf]
      rw [hg] at hs
      simp only [Option.some.injEq] at hs
      subst hs
      decide
    | some n =>
      have hg : get_title soup = nodeString n := by
        unfold get_title
        rw [hf]
      rw [hg] at hs
      exact nodeString_ne_nil n (findTitle_textsNE soup hne n hf) s hs

/-- C6 witness: the theorem at the empty document and at
`<title>Site</title>`. -/
theorem title_extraction_fallback_witness :
    get_title HForest.nil = some fallbackTitle ∧
    get_title titleDoc = some "Site".data ∧
    "Site".data ≠ [] := by
  refine ⟨(title_extraction_fallback .nil).1 rfl, ?_, ?_⟩
  · exact ((title_extraction_fallback titleDoc).2.1
      (.elem "title".data (.cons (.text "Site".data) .nil)) rfl).trans rfl
  · exact (title_extraction_fallback titleDoc).2.2.1 rfl "Site".data
      (((title_extraction_fallback titleDoc).2.1
        (.elem "title".data (.cons (.text "Site".data) .nil)) rfl).trans rfl)

/-- C7: for every task of the four supported kinds and every outcome of the
dispatched operation, the worker's run emits exactly one terminal signal —
`finished` with the operation's value on normal return, `error` with the
stringified exception when the operation raises — and never both
(app.py:47-60). -/
theorem worker_single_terminal_outcome :
    ∀ (env : OpEnv) (w : WorkerArgs),
      (w.task_type = "fetch".data ∨ w.task_type = "summarize".data ∨
       w.task_type = "analyze".data ∨ w.task_type = "tts".data) →
      (WorkerThread.run env w).length = 1 ∧
      (∀ r, runBody env w = .ok r → WorkerThread.run env w = [.finished r]) ∧
      (∀ m, runBody env w = .error m → WorkerThread.run env w = [.error m]) ∧
      ((∃ r, WorkerThread.run env w = [.finished r]) ∨
       (∃ m, WorkerThread.run env w = [.error m])) := by
  intro env w _
  unfold WorkerThread.run
  cases h : runBody env w with
  | ok r =>
    refine ⟨rfl, ?_, ?_, Or.inl ⟨r, rfl⟩⟩
    · intro r' hr
      injection hr with hh
      subst hh
      rfl
    · intro m hm
      exact absurd hm (by simp)
  | error m =>
    refine ⟨rfl, ?_, ?_, Or.inr ⟨m, rfl⟩⟩
    · intro r hr
      exact absurd hr (by simp)
    · intro m' hm
      injection hm with hh
      subst hh
      rfl

/-- C7 witness: a fetch task in an environment where the fetch returns
normally. -/
theorem worker_single_terminal_outcome_witness :
    (WorkerThread.run okEnv fetchArgs).length = 1 ∧
    WorkerThread.run okEnv fetchArgs = [.finished "h".data] := by
  have h := worker_single_terminal_outcome okEnv fetchArgs (Or.inl rfl)
  exact ⟨h.1, h.2.1 "h".data rfl⟩

/-- C8: the session history is append-only and displayed newest-first:
appending A, B, C and listing shows C, B, A (numbered from 1), for every
starting history and for every sequence of appends (app.py:1046-1051,
1090-1096). -/
theorem history_newest_first :
    ∀ (h : List HistoryEntry) (A B C : HistoryEntry),
      update_history_list
          (listAppendPy (listAppendPy (listAppendPy h A) B) C) =
        (List.enumFrom 1 (C :: B :: A :: h.reverse)).map
          (fun p => historyItemText p.1 p.2) ∧
      update_history_list
          (listAppendPy (listAppendPy (listAppendPy [] A) B) C) =
        [historyItemText 1 C, historyItemText 2 B, historyItemText 3 A] ∧
      (∀ es : List HistoryEntry,
        update_history_list (es.foldl listAppendPy []) =
          (List.enumFrom 1 es.reverse).map
            (fun p => historyItemText p.1 p.2)) := by
  intro h A B C
  refine ⟨?_, ?_, ?_⟩
  · simp [update_history_list, listAppendPy, List.reverse_append]
  · simp [update_history_list, listAppendPy]
  · intro es
    rw [foldl_listAppendPy es []]
    simp [update_history_list]

/-- C9: the desktop front end's `extract_text` and the web front end's
`extract_text` compute the same function on every document (app.py:877-886,
app_streamlit.py:201-209). -/
theorem frontends_extract_text_agree :
    ∀ doc : HForest,
      AIWebsiteReaderApp.extract_text doc = AIReader.extract_text doc :=
  fun _ => rfl

/-- C10: for a task type outside the four supported kinds the worker's run
emits exactly one `error` signal — the `UnboundLocalError` from referencing
the never-assigned `result` is caught and stringified like any other
exception, its message is non-empty, and `finished` is never emitted
(app.py:47-60). -/
theorem unknown_task_type_single_error :
    ∀ (env : OpEnv) (w : WorkerArgs),
      w.task_type ≠ "fetch".data → w.task_type ≠ "summarize".data →
      w.task_type ≠ "analyze".data → w.task_type ≠ "tts".data →
      WorkerThread.run env w = [.error unboundLocalMsg] ∧
      unboundLocalMsg ≠ [] ∧
      (WorkerThread.run env w).length = 1 ∧
      (∀ r, WSignal.finished r ∉ WorkerThread.run env w) := by
  intro env w h1 h2 h3 h4
  have hb : runBody env w = .error unboundLocalMsg := by
    simp [runBody, h1, h2, h3, h4]
  refine ⟨?_, by decide, ?_, ?_⟩
  · simp [WorkerThread.run, hb]
  · simp [WorkerThread.run, hb]
  · intro r hr
    simp [WorkerThread.run, hb] at hr

/-- C10 witness: the theorem at the concrete task type "bogus". -/
theorem unknown_task_type_single_error_witness :
    WorkerThread.run okEnv bogusArgs = [.error unboundLocalMsg] ∧
    unboundLocalMsg ≠ [] := by
  have h := unknown_task_type_single_error okEnv bogusArgs
    (by decide) (by decide) (by decide) (by decide)
  exact ⟨h.1, h.2.1⟩
